import Mathlib

/-!
Verification of the core of a stdio JSON-RPC server (message framer,
dispatcher, retry policy, rate limiter, cache-key construction).

The JavaScript runtime represents strings as sequences of UTF-16 code
units; `String.prototype.length`, `slice` and regex matching all work on
code units.  We therefore model every JS string as a `List Nat` of code
units.  JS numbers are modelled as rationals (`ℚ`); every arithmetic
operation exercised by the theorems below is exact in binary64 as well.
-/

/-- Code units of an ASCII/BMP Lean string literal (one UTF-16 unit per
Basic-Multilingual-Plane character). -/
def jstr (s : String) : List Nat :=
  s.data.map Char.toNat

-- The JSON value model.  Numbers are rationals: integral JSON numbers
-- (the only ones the theorems evaluate) behave exactly like binary64.
-- Object fields are kept in insertion order, as JS objects do.  Arrays and
-- objects carry their own list spine (`JsonArr`/`JsonObj`) so that every
-- function below is plain structural recursion and evaluates in the kernel.
mutual
/-- A JSON value as produced by `JSON.parse` / consumed by `JSON.stringify`. -/
inductive Json where
  | null : Json
  | bool (b : Bool) : Json
  | num (q : ℚ) : Json
  | str (s : List Nat) : Json
  | arr (elems : JsonArr) : Json
  | obj (fields : JsonObj) : Json

/-- Spine of a JSON array. -/
inductive JsonArr where
  | nil : JsonArr
  | cons (hd : Json) (tl : JsonArr) : JsonArr

/-- Spine of a JSON object: ordered key-value fields. -/
inductive JsonObj where
  | nil : JsonObj
  | cons (key : List Nat) (val : Json) (tl : JsonObj) : JsonObj
end

/-- Build an object spine from a list of key-value pairs. -/
def listToObj : List (List Nat × Json) → JsonObj
  | [] => .nil
  | (k, v) :: t => .cons k v (listToObj t)

/-- Build an array spine from a list of values. -/
def listToArr : List Json → JsonArr
  | [] => .nil
  | v :: t => .cons v (listToArr t)

/-- First-match lookup in an object spine (JS object keys are unique,
so first match is the only match). -/
def findField : JsonObj → List Nat → Option Json
  | .nil, _ => none
  | .cons k v t, key => if k = key then some v else findField t key

/-- Property read `message.k`: `some` value when present, `none` for the
JS `undefined` of a missing property or a non-object receiver. -/
def getField : Json → List Nat → Option Json
  | .obj fields, k => findField fields k
  | _, _ => none

/-- `'k' in message` — key presence (a field holding `null` still counts). -/
def hasField (j : Json) (k : List Nat) : Bool :=
  (getField j k).isSome

/-- Is `c` the code of a decimal digit? -/
def isDigitCode (c : Nat) : Bool :=
  48 ≤ c && c ≤ 57

/-- `parseInt` of a digit run: fold decimal digits into a number. -/
def digitsToNat (ds : List Nat) : Nat :=
  ds.foldl (fun acc d => acc * 10 + (d - 48)) 0

/-- Decimal digit codes, most significant first; fuel-bounded so that the
definition is structural (fuel `n + 1` always suffices). -/
def natDigitsGo : Nat → Nat → List Nat
  | 0, _ => []
  | f + 1, n =>
    if n < 10 then [48 + n]
    else natDigitsGo f (n / 10) ++ [48 + n % 10]

/-- Decimal digit codes of a natural number, most significant first. -/
def natDigits (n : Nat) : List Nat :=
  natDigitsGo (n + 1) n

/-- Decimal digit codes of an integer (minus sign for negatives). -/
def intUnits (i : ℤ) : List Nat :=
  if i < 0 then 45 :: natDigits i.natAbs else natDigits i.natAbs

/-- Finite decimal expansion of a fraction, fuel-bounded.  Doubles always
have denominators dividing a power of ten times a power of two, so for
values a JS program can actually hold the expansion terminates; the fuel
bound is a harmless cutoff for rationals no double represents. -/
def fracDigits (fuel : Nat) (num den : Nat) : List Nat :=
  match fuel with
  | 0 => []
  | f + 1 =>
    if num = 0 then []
    else (48 + num * 10 / den) :: fracDigits f (num * 10 % den) den

/-- `JSON.stringify` on a number.  Exact for integers (the only numbers
the claims evaluate); binary64 shortest-round-trip printing of fractional
values is approximated by plain decimal expansion. -/
def numUnits (q : ℚ) : List Nat :=
  if q.den = 1 then intUnits q.num
  else (if q < 0 then [45] else []) ++ natDigits q.num.natAbs ++
    46 :: fracDigits 64 (q.num.natAbs % q.den) q.den

/-- `JSON.stringify` escaping of one string code unit, per ECMA-404/JS:
quote, backslash, and the control characters (with the five short forms). -/
def escapeUnit (u : Nat) : List Nat :=
  if u = 34 then [92, 34]
  else if u = 92 then [92, 92]
  else if u = 8 then [92, 98]
  else if u = 9 then [92, 116]
  else if u = 10 then [92, 110]
  else if u = 12 then [92, 102]
  else if u = 13 then [92, 114]
  else if u < 32 then
    [92, 117, 48, 48,
      (if u / 16 < 10 then 48 + u / 16 else 87 + u / 16),
      (if u % 16 < 10 then 48 + u % 16 else 87 + u % 16)]
  else [u]

/-- `JSON.stringify` of a string value, including the surrounding quotes. -/
def strUnits (s : List Nat) : List Nat :=
  34 :: (s.flatMap escapeUnit) ++ [34]

/-- Interleave a separator between serialized items. -/
def joinSep (sep : List Nat) : List (List Nat) → List Nat
  | [] => []
  | [x] => x
  | x :: xs => x ++ sep ++ joinSep sep xs

mutual
/-- `JSON.stringify` (modelled): null/true/false literals, numbers,
escaped strings, arrays and objects with no added whitespace. -/
def jsonStringify : Json → List Nat
  | .null => jstr "null"
  | .bool true => jstr "true"
  | .bool false => jstr "false"
  | .num q => numUnits q
  | .str s => strUnits s
  | .arr elems => 91 :: joinSep [44] (stringifyArr elems) ++ [93]
  | .obj fields => 123 :: joinSep [44] (stringifyObj fields) ++ [125]

/-- Serialized elements of an array. -/
def stringifyArr : JsonArr → List (List Nat)
  | .nil => []
  | .cons v t => jsonStringify v :: stringifyArr t

/-- Serialized `"key":value` members of an object. -/
def stringifyObj : JsonObj → List (List Nat)
  | .nil => []
  | .cons k v t => (strUnits k ++ 58 :: jsonStringify v) :: stringifyObj t
end

/-- JSON whitespace (space, tab, LF, CR) removal. -/
def skipWs (l : List Nat) : List Nat :=
  l.dropWhile (fun c => c = 32 || c = 9 || c = 10 || c = 13)

/-- Value of one hexadecimal digit code. -/
def hexVal (c : Nat) : Option Nat :=
  if 48 ≤ c && c ≤ 57 then some (c - 48)
  else if 97 ≤ c && c ≤ 102 then some (c - 87)
  else if 65 ≤ c && c ≤ 70 then some (c - 55)
  else none

/-- The single-character JSON string escapes. -/
def escMap (e : Nat) : Option Nat :=
  if e = 34 then some 34
  else if e = 92 then some 92
  else if e = 47 then some 47
  else if e = 98 then some 8
  else if e = 102 then some 12
  else if e = 110 then some 10
  else if e = 114 then some 13
  else if e = 116 then some 9
  else none

/-- Parse a JSON string body after the opening quote: returns the decoded
units and the remaining input.  Raw control characters are rejected, as
`JSON.parse` does. -/
def parseStringBody : List Nat → Option (List Nat × List Nat)
  | [] => none
  | 34 :: rest => some ([], rest)
  | 92 :: e :: rest =>
    if e = 117 then
      match rest with
      | h1 :: h2 :: h3 :: h4 :: r =>
        match hexVal h1, hexVal h2, hexVal h3, hexVal h4 with
        | some a, some b, some c, some d =>
          (parseStringBody r).map (fun p => ((((a * 16 + b) * 16 + c) * 16 + d) :: p.1, p.2))
        | _, _, _, _ => none
      | _ => none
    else
      match escMap e with
      | some u => (parseStringBody rest).map (fun p => (u :: p.1, p.2))
      | none => none
  | u :: rest =>
    if u < 32 then none
    else (parseStringBody rest).map (fun p => (u :: p.1, p.2))

/-- JSON integer part: `0` or a nonzero-led digit run. -/
def intPart : List Nat → Option (Nat × List Nat)
  | 48 :: t => some (0, t)
  | l =>
    let ds := l.takeWhile isDigitCode
    if ds.isEmpty then none else some (digitsToNat ds, l.drop ds.length)

/-- JSON fraction part: `.digits`, or empty. -/
def fracOf : List Nat → Option (List Nat × List Nat)
  | 46 :: t =>
    let ds := t.takeWhile isDigitCode
    if ds.isEmpty then none else some (ds, t.drop ds.length)
  | l => some ([], l)

/-- JSON exponent part: `[eE][+-]?digits`, or empty. -/
def expOf : List Nat → Option (ℤ × List Nat)
  | [] => some (0, [])
  | c :: t =>
    if c = 101 || c = 69 then
      let st : ℤ × List Nat :=
        match t with
        | 43 :: t2 => (1, t2)
        | 45 :: t2 => (-1, t2)
        | _ => (1, t)
      let ds := st.2.takeWhile isDigitCode
      if ds.isEmpty then none
      else some (st.1 * digitsToNat ds, st.2.drop ds.length)
    else some (0, c :: t)

/-- Parse a JSON number per the ECMA-404 grammar.  The numeric value is
kept as an exact rational rather than rounded to binary64. -/
def parseNumber (l : List Nat) : Option (ℚ × List Nat) :=
  let sl : Bool × List Nat := match l with | 45 :: t => (true, t) | _ => (false, l)
  match intPart sl.2 with
  | none => none
  | some (ip, l2) =>
    match fracOf l2 with
    | none => none
    | some (fds, l3) =>
      match expOf l3 with
      | none => none
      | some (e, l4) =>
        -- digit-only numerals are returned without any rational
        -- arithmetic (same value, but the term stays a literal)
        let mant : ℚ :=
          if fds.isEmpty && e = 0 then (ip : ℚ)
          else ((ip : ℚ) + (digitsToNat fds : ℚ) / (10 : ℚ) ^ fds.length) * (10 : ℚ) ^ e
        some ((if sl.1 then -mant else mant), l4)

/-- Last value bound to `k` in the remaining members (JS duplicate-key
semantics: the last write wins). -/
def objLastVal (k : List Nat) : JsonObj → Option Json
  | .nil => none
  | .cons k2 v t =>
    match objLastVal k t with
    | some x => some x
    | none => if k2 = k then some v else none

/-- Drop every member keyed `k`. -/
def objRemoveAll (k : List Nat) : JsonObj → JsonObj
  | .nil => .nil
  | .cons k2 v t =>
    if k2 = k then objRemoveAll k t else .cons k2 v (objRemoveAll k t)

/-- Prepend member `k ↦ v` to already-parsed later members, with JS
duplicate-key semantics: first occurrence keeps its position, the last
value wins. -/
def objPrepend (k : List Nat) (v : Json) (rest : JsonObj) : JsonObj :=
  .cons k ((objLastVal k rest).getD v) (objRemoveAll k rest)

mutual
/-- Fuel-bounded recursive-descent JSON value parser (the fuel handed out
by `jsonParse` always suffices; running out only cuts off inputs that are
malformed anyway). -/
def parseValue : Nat → List Nat → Option (Json × List Nat)
  | 0, _ => none
  | f + 1, l0 =>
    match skipWs l0 with
    | 123 :: t => parseObjBody f t
    | 91 :: t => parseArrBody f t
    | 34 :: t => (parseStringBody t).map (fun p => (Json.str p.1, p.2))
    | 110 :: 117 :: 108 :: 108 :: t => some (Json.null, t)
    | 116 :: 114 :: 117 :: 101 :: t => some (Json.bool true, t)
    | 102 :: 97 :: 108 :: 115 :: 101 :: t => some (Json.bool false, t)
    | l => (parseNumber l).map (fun p => (Json.num p.1, p.2))

/-- After `[`: empty array or element list. -/
def parseArrBody : Nat → List Nat → Option (Json × List Nat)
  | 0, _ => none
  | f + 1, t =>
    match skipWs t with
    | 93 :: r => some (Json.arr .nil, r)
    | _ => (parseArrElems f t).map (fun p => (Json.arr p.1, p.2))

/-- One or more comma-separated array elements, then `]`. -/
def parseArrElems : Nat → List Nat → Option (JsonArr × List Nat)
  | 0, _ => none
  | f + 1, t =>
    match parseValue f t with
    | none => none
    | some (v, r) =>
      match skipWs r with
      | 44 :: r2 => (parseArrElems f r2).map (fun p => (JsonArr.cons v p.1, p.2))
      | 93 :: r2 => some (JsonArr.cons v .nil, r2)
      | _ => none

/-- After `{`: empty object or member list. -/
def parseObjBody : Nat → List Nat → Option (Json × List Nat)
  | 0, _ => none
  | f + 1, t =>
    match skipWs t with
    | 125 :: r => some (Json.obj .nil, r)
    | _ => (parseObjMembers f t).map (fun p => (Json.obj p.1, p.2))

/-- One or more comma-separated `"key": value` members, then `}`. -/
def parseObjMembers : Nat → List Nat → Option (JsonObj × List Nat)
  | 0, _ => none
  | f + 1, t =>
    match skipWs t with
    | 34 :: r =>
      match parseStringBody r with
      | none => none
      | some (k, r1) =>
        match skipWs r1 with
        | 58 :: r2 =>
          match parseValue f r2 with
          | none => none
          | some (v, r3) =>
            match skipWs r3 with
            | 44 :: r4 => (parseObjMembers f r4).map (fun p => (objPrepend k v p.1, p.2))
            | 125 :: r4 => some (.cons k v .nil, r4)
            | _ => none
        | _ => none
    | _ => none
end

/-- `JSON.parse` (modelled): parse one value, then require only trailing
whitespace. -/
def jsonParse (l : List Nat) : Option Json :=
  match parseValue (4 * l.length + 16) l with
  | some (j, r) => if skipWs r = [] then some j else none
  | none => none

/-- The literal `Content-Length: ` (16 units) that must open a frame. -/
def clMark : List Nat := jstr "Content-Length: "

/-- Match the regex fragment `\r?\n` at the head of the input, returning
how many units it consumed.  A greedy optional `\r` must be followed by
`\n`; backtracking to the bare-`\n` alternative can only succeed when the
head is `\n` itself. -/
def matchEol : List Nat → Option Nat
  | [] => none
  | [u] => if u = 10 then some 1 else none
  | u :: u2 :: _ =>
    if u = 10 then some 1
    else if u = 13 && u2 = 10 then some 2
    else none

/-- Match `/^Content-Length: (\d+)\r?\n\r?\n/` against the buffer.
Returns `(contentLength, headerLength)`: the parsed digit run and the
total number of units the regex match spans. -/
def parseHeader (b : List Nat) : Option (Nat × Nat) :=
  if clMark.isPrefixOf b then
    let t := b.drop 16
    let ds := t.takeWhile isDigitCode
    if ds.isEmpty then none
    else
      match matchEol (t.drop ds.length) with
      | none => none
      | some n1 =>
        match matchEol ((t.drop ds.length).drop n1) with
        | none => none
        | some n2 => some (digitsToNat ds, 16 + ds.length + n1 + n2)
  else none

/-- JS truthiness of a JSON value (`id || 0` in `sendError`). -/
def jsTruthy : Json → Bool
  | .null => false
  | .bool b => b
  | .num q => !(q == 0)
  | .str s => !s.isEmpty
  | .arr _ => true
  | .obj _ => true

/-- The Response object built by `sendError(id, code, message, data?)`.
The id is coerced by `id || 0`: a `null` (or otherwise falsy) id becomes
the number 0.  An absent `data` is dropped by `JSON.stringify`, so the
error envelope holds it only when present. -/
def sendErrorJson (idArg : Option Json) (code : ℚ) (msg : List Nat)
    (data : Option Json) : Json :=
  Json.obj (listToObj
    [(jstr "jsonrpc", Json.str (jstr "2.0")),
     (jstr "id",
       match idArg with
       | some j => if jsTruthy j then j else Json.num 0
       | none => Json.num 0),
     (jstr "error", Json.obj (listToObj
       ([(jstr "code", Json.num code),
         (jstr "message", Json.str msg)] ++
        (match data with
         | some d => [(jstr "data", d)]
         | none => []))))])

/-- The parse-error Response the framer sends for an unparseable payload:
`sendError(null, -32700, 'Parse error', { originalMessage })`. -/
def mkParseErrorResp (payload : List Nat) : Json :=
  sendErrorJson none (-32700) (jstr "Parse error")
    (some (Json.obj (listToObj [(jstr "originalMessage", Json.str payload)])))

/-- What one extracted frame produces: a parsed message handed to the
dispatcher, or a parse-error Response written to stdout. -/
inductive FramerEvent where
  | dispatch (msg : Json)
  | emit (response : Json)

/-- `STDIOHandler.processBuffer`: repeatedly match the header regex at
the start of the buffer; stop when it fails to match or the buffer holds
fewer than `headerLength + contentLength` units; otherwise slice out the
payload, advance the buffer, and either dispatch the parsed message or
emit the -32700 parse-error Response, then continue the loop.  Returns
the produced events in order together with the final buffer. -/
def drain (b : List Nat) : List FramerEvent × List Nat :=
  match h : parseHeader b with
  | none => ([], b)
  | some (cl, hl) =>
    if hlen : b.length < hl + cl then ([], b)
    else
      let ev :=
        match jsonParse ((b.drop hl).take cl) with
        | some j => FramerEvent.dispatch j
        | none => FramerEvent.emit (mkParseErrorResp ((b.drop hl).take cl))
      (ev :: (drain (b.drop (hl + cl))).1, (drain (b.drop (hl + cl))).2)
termination_by b.length
decreasing_by
  all_goals
    simp only [List.length_drop]
    unfold parseHeader at h
    split at h
    case isFalse => exact absurd h (by simp)
    case isTrue =>
      simp only [] at h
      split at h
      case isTrue => exact absurd h (by simp)
      case isFalse =>
        split at h
        case h_1 => exact absurd h (by simp)
        case h_2 n1 heq1 =>
          split at h
          case h_1 => exact absurd h (by simp)
          case h_2 n2 heq2 =>
            injection h with h1
            injection h1 with hcl hhl
            omega

/-- `stdin.on('data')` repeated over a chunk list: append each chunk to
the buffer, run `drain`, collect the events. -/
def feedAll (buf : List Nat) : List (List Nat) → List FramerEvent × List Nat
  | [] => ([], buf)
  | c :: cs =>
    ((drain (buf ++ c)).1 ++ (feedAll (drain (buf ++ c)).2 cs).1,
     (feedAll (drain (buf ++ c)).2 cs).2)

/-- `Buffer.byteLength(s, 'utf8')` on a UTF-16 code-unit sequence:
1/2/3 bytes by code-unit band, 4 for a well-formed surrogate pair, and 3
for a lone surrogate (encoded as U+FFFD). -/
def utf8Len : List Nat → Nat
  | [] => 0
  | [u] => if u < 128 then 1 else if u < 2048 then 2 else 3
  | u :: u2 :: rest =>
    if u < 128 then 1 + utf8Len (u2 :: rest)
    else if u < 2048 then 2 + utf8Len (u2 :: rest)
    else if 55296 ≤ u && u ≤ 56319 && 56320 ≤ u2 && u2 ≤ 57343 then
      4 + utf8Len rest
    else 3 + utf8Len (u2 :: rest)

/-- `STDIOHandler.sendMessage`: serialize, measure the UTF-8 byte length,
and write `Content-Length: <L>\r\n\r\n<json>`. -/
def frameMessage (j : Json) : List Nat :=
  clMark ++ natDigits (utf8Len (jsonStringify j)) ++ [13, 10, 13, 10] ++ jsonStringify j

/-- A wire frame whose declared length is the payload's unit count (the
shape a failing frame arrives in for the parse-error claim). -/
def mkFrame (p : List Nat) : List Nat :=
  clMark ++ natDigits p.length ++ [13, 10, 13, 10] ++ p

/-- Concrete valid Request whose method is the single non-ASCII
character é (code unit 233): serialized JSON is 37 UTF-16 units but 38
UTF-8 bytes. -/
def msgUnicode : Json :=
  Json.obj (listToObj
    [(jstr "jsonrpc", Json.str (jstr "2.0")), (jstr "id", Json.num 1),
     (jstr "method", Json.str [233])])

/-- The same Request with ASCII method `x`: 37 units and 37 bytes. -/
def msgAscii : Json :=
  Json.obj (listToObj
    [(jstr "jsonrpc", Json.str (jstr "2.0")), (jstr "id", Json.num 1),
     (jstr "method", Json.str (jstr "x"))])

/-- A JS thrown value as the dispatcher's catch block sees it: either an
`Error` instance (whose `message` is always a string, with an optional
string `code` field — a non-string `code` counts as absent, mirroring the
`typeof error.code === 'string'` probe — and an optional `context` field,
where `none` also covers a `context` holding `undefined`), or any
non-`Error` thrown value. -/
inductive JsThrown where
  | errObj (message : List Nat) (code : Option (List Nat)) (context : Option Json)
  | nonError (v : Json)

/-- Outcome of awaiting a request handler. -/
inductive HandlerResult where
  | ok (result : Json)
  | throws (e : JsThrown)

/-- Outcome of running a (synchronous) notification handler. -/
inductive NotifResult where
  | ok
  | throws (e : JsThrown)

/-- `Map.get` over the registration map: first (only) match by method
name; a `Map` never holds duplicate keys, and `onRequest` overwrites. -/
def lookupStr {α : Type} : List (List Nat × α) → List Nat → Option α
  | [], _ => none
  | (k, v) :: t, key => if k = key then some v else lookupStr t key

/-- The Response `sendResponse(id, result)` builds (no id coercion). -/
def mkResultResp (idJ : Json) (result : Json) : Json :=
  Json.obj (listToObj
    [(jstr "jsonrpc", Json.str (jstr "2.0")),
     (jstr "id", idJ),
     (jstr "result", result)])

/-- `STDIOHandler.handleMessage`: classify by `'id' in message`
(notification vs request), look up the handler, and translate the
outcome into at most one sent Response.

For a non-object message, `'id' in message` raises a TypeError inside
the async method, producing an unhandled rejection and no Response;
modelled as no output.  The outer catch is reachable only from a
throwing notification handler, where `'id' in message` is false, so it
answers `sendError(null, -32603, 'Internal error')`. -/
def handleMessage (reqH : List (List Nat × (Option Json → HandlerResult)))
    (ntfH : List (List Nat × (Option Json → NotifResult)))
    (msg : Json) : Option Json :=
  match msg with
  | .obj _ =>
    if hasField msg (jstr "id") = false then
      match getField msg (jstr "method") with
      | some (.str m) =>
        match lookupStr ntfH m with
        | some h =>
          match h (getField msg (jstr "params")) with
          | .ok => none
          | .throws _ => some (sendErrorJson none (-32603) (jstr "Internal error") none)
        | none => none
      | _ => none
    else
      match
        (match getField msg (jstr "method") with
         | some (.str m) => lookupStr reqH m
         | _ => none) with
      | none =>
        some (sendErrorJson (getField msg (jstr "id")) (-32601) (jstr "Method not found")
          (some (Json.obj (listToObj
            (match getField msg (jstr "method") with
             | some mv => [(jstr "method", mv)]
             | none => [])))))
      | some h =>
        match h (getField msg (jstr "params")) with
        | .ok r => some (mkResultResp ((getField msg (jstr "id")).getD Json.null) r)
        | .throws e =>
          match e with
          | .errObj emsg (some c) ctx =>
            some (sendErrorJson (getField msg (jstr "id")) (-32000) emsg
              (some (Json.obj (listToObj
                ([(jstr "code", Json.str c)] ++
                 (match ctx with
                  | some cv => [(jstr "context", cv)]
                  | none => []))))))
          | .errObj emsg none _ =>
            some (sendErrorJson (getField msg (jstr "id")) (-32603) emsg none)
          | .nonError _ =>
            some (sendErrorJson (getField msg (jstr "id")) (-32603) (jstr "Internal error") none)
  | _ => none

/-- Build a Request message object `{jsonrpc, id, method, params?}`. -/
def reqMsg (idJ : Json) (m : List Nat) (params : Option Json) : Json :=
  Json.obj (listToObj
    ([(jstr "jsonrpc", Json.str (jstr "2.0")),
      (jstr "id", idJ),
      (jstr "method", Json.str m)] ++
     (match params with
      | some p => [(jstr "params", p)]
      | none => [])))

/-- Build a Notification message object `{jsonrpc, method, params?}`. -/
def ntfMsg (m : List Nat) (params : Option Json) : Json :=
  Json.obj (listToObj
    ([(jstr "jsonrpc", Json.str (jstr "2.0")),
      (jstr "method", Json.str m)] ++
     (match params with
      | some p => [(jstr "params", p)]
      | none => [])))

/-- The HTTP-ish `error.response` shape the retry policy probes. -/
structure JsResp where
  status : ℤ
  retryAfterHdr : Option (List Nat)

/-- A failure as `withRetry` sees it: optional `response` (with status and
a raw `retry-after` header string) and optional network error `code`. -/
structure JsError where
  response : Option JsResp
  code : Option (List Nat)

/-- Is `c` a hexadecimal digit code? -/
def isHexCode (c : Nat) : Bool :=
  (48 ≤ c && c ≤ 57) || (97 ≤ c && c ≤ 102) || (65 ≤ c && c ≤ 70)

/-- Fold hexadecimal digit codes into a number. -/
def hexDigitsToNat (ds : List Nat) : Nat :=
  ds.foldl (fun acc d => acc * 16 + (hexVal d).getD 0) 0

/-- `parseInt(s)` (radix auto-detect): trim leading whitespace, optional
sign, `0x`/`0X` switches to hexadecimal, then the longest digit run; no
digits means NaN (`none`). -/
def jsParseInt (s : List Nat) : Option ℤ :=
  let t := s.dropWhile (fun c => c = 32 || c = 9 || c = 10 || c = 13 || c = 11 || c = 12)
  let st : ℤ × List Nat :=
    match t with
    | 43 :: r => (1, r)
    | 45 :: r => (-1, r)
    | _ => (1, t)
  match st.2 with
  | 48 :: x :: r =>
    if x = 120 || x = 88 then
      let ds := r.takeWhile isHexCode
      if ds.isEmpty then none else some (st.1 * hexDigitsToNat ds)
    else
      let ds := (48 :: x :: r).takeWhile isDigitCode
      some (st.1 * digitsToNat ds)
  | l =>
    let ds := l.takeWhile isDigitCode
    if ds.isEmpty then none else some (st.1 * digitsToNat ds)

/-- The default `retryCondition`: 5xx or 429 when a response is present,
otherwise the three network error codes. -/
def defaultRetryCondition (e : JsError) : Bool :=
  match e.response with
  | some r => (500 ≤ r.status) || (r.status = 429)
  | none =>
    e.code == some (jstr "ECONNREFUSED") ||
    e.code == some (jstr "ENOTFOUND") ||
    e.code == some (jstr "ETIMEDOUT")

/-- `withRetry`'s option record after defaulting. -/
structure RetryOptions where
  maxAttempts : Nat
  baseDelay : ℚ
  maxDelay : ℚ
  jitter : Bool
  retryCondition : JsError → Bool

/-- The delay slept after a retryable failure at attempt `attempt`
(1-based): exponential backoff capped at `maxDelay`, scaled by the jitter
draw `r ∈ [0,1)` when enabled, then raised to `retryAfter * 1000` when the
failure carries a parseable `retry-after` header. -/
def computeDelay (opts : RetryOptions) (e : JsError) (r : ℚ) (attempt : Nat) : ℚ :=
  let d0 := min (opts.baseDelay * 2 ^ (attempt - 1)) opts.maxDelay
  let d1 := if opts.jitter then d0 * (1/2 + r * (1/2)) else d0
  match e.response with
  | none => d1
  | some resp =>
    match resp.retryAfterHdr with
    | none => d1
    | some hdr =>
      match jsParseInt hdr with
      | none => d1
      | some ra => max d1 ((ra : ℚ) * 1000)

/-- Result of a `withRetry` run; `undefinedThrown` is the JS
`throw lastError` with `lastError` still `undefined` (only reachable when
`maxAttempts = 0` skips the loop entirely). -/
inductive RetryResult (α : Type) where
  | ok (a : α)
  | errored (e : JsError)
  | undefinedThrown

/-- Observable trace of a `withRetry` run: outcome, how many times the
operation ran, and each sleep together with the failure that caused it. -/
structure RetryTrace (α : Type) where
  result : RetryResult α
  attemptsMade : Nat
  sleeps : List (JsError × ℚ)

/-- The `for (attempt = ...; attempt <= maxAttempts; ...)` loop body of
`withRetry`.  `op n` is the outcome of the n-th operation invocation and
`rnd n` the jitter draw of attempt n; `fuel` counts the remaining loop
iterations after this one (`maxAttempts - attempt`, so it never runs
out before the `attempt === maxAttempts` exit). -/
def retryGo {α : Type} (opts : RetryOptions) (op : Nat → Except JsError α)
    (rnd : Nat → ℚ) : Nat → Nat → RetryTrace α
  | attempt, fuel =>
    match op attempt with
    | .ok a => ⟨.ok a, attempt, []⟩
    | .error e =>
      if attempt = opts.maxAttempts || !(opts.retryCondition e) then
        ⟨.errored e, attempt, []⟩
      else
        match fuel with
        | 0 => ⟨.errored e, attempt, []⟩
        | f + 1 =>
          let t := retryGo opts op rnd (attempt + 1) f
          ⟨t.result, t.attemptsMade, (e, computeDelay opts e (rnd attempt) attempt) :: t.sleeps⟩

/-- `withRetry(operation, options)` as a trace. -/
def withRetry {α : Type} (opts : RetryOptions) (op : Nat → Except JsError α)
    (rnd : Nat → ℚ) : RetryTrace α :=
  if opts.maxAttempts = 0 then ⟨.undefinedThrown, 0, []⟩
  else retryGo opts op rnd 1 (opts.maxAttempts - 1)

/-- `TokenBucket` state: JS numbers modelled as exact rationals. -/
structure TokenBucket where
  capacity : ℚ
  refillRate : ℚ
  tokens : ℚ
  lastRefill : ℚ

/-- `TokenBucket.refill`: credit `elapsed/1000 * refillRate` tokens,
capped at capacity, and stamp the refill time. -/
def TokenBucket.refill (b : TokenBucket) (now : ℚ) : TokenBucket :=
  { b with
    tokens := min b.capacity (b.tokens + (now - b.lastRefill) / 1000 * b.refillRate),
    lastRefill := now }

/-- `TokenBucket.consume(tokens)`: refill, then deduct on success. -/
def TokenBucket.consume (b : TokenBucket) (now : ℚ) (tokens : ℚ) : Bool × TokenBucket :=
  let b2 := b.refill now
  if tokens ≤ b2.tokens then (true, { b2 with tokens := b2.tokens - tokens })
  else (false, b2)

/-- `TokenBucket.getWaitTime(tokens)`: refill, then
`(tokensNeeded / refillRate) * 1000` ms (0 when enough are available). -/
def TokenBucket.waitTimeMs (b : TokenBucket) (now : ℚ) (tokens : ℚ) : ℚ × TokenBucket :=
  let b2 := b.refill now
  if tokens ≤ b2.tokens then (0, b2)
  else ((tokens - b2.tokens) / b2.refillRate * 1000, b2)

/-- `RateLimiter` state: per-key buckets created lazily with the default
capacity/refill rate. -/
structure RateLimiter where
  defaultCapacity : ℚ
  defaultRefillRate : ℚ
  buckets : List (List Nat × TokenBucket)

/-- `Map.set`: replace in place or append. -/
def setAssoc {α : Type} : List (List Nat × α) → List Nat → α → List (List Nat × α)
  | [], k, v => [(k, v)]
  | (k2, v2) :: t, k, v =>
    if k2 = k then (k, v) :: t else (k2, v2) :: setAssoc t k v

/-- `RateLimiter.checkLimit(key, tokens)`: get or lazily create the
bucket, consume; on failure compute the wait time and throw an Error
whose message carries `Math.ceil(waitTime)` ms — modelled as
`some ⌈waitTime⌉`.  `now` stands for `Date.now()` (both internal refills
happen in the same call, hence at the same timestamp). -/
def checkLimit (rl : RateLimiter) (key : List Nat) (tokens : ℚ) (now : ℚ) :
    Option ℤ × RateLimiter :=
  let bucket :=
    match lookupStr rl.buckets key with
    | some b => b
    | none => ⟨rl.defaultCapacity, rl.defaultRefillRate, rl.defaultCapacity, now⟩
  let c := bucket.consume now tokens
  if c.1 then (none, { rl with buckets := setAssoc rl.buckets key c.2 })
  else
    let w := c.2.waitTimeMs now tokens
    (some ⌈w.1⌉, { rl with buckets := setAssoc rl.buckets key w.2 })

/-- Lexicographic order on UTF-16 code-unit sequences — exactly the
default `Array.prototype.sort` comparison of JS strings. -/
def keyLEb : List Nat → List Nat → Bool
  | [], _ => true
  | _ :: _, [] => false
  | a :: as, b :: bs =>
    if a < b then true else if b < a then false else keyLEb as bs

/-- `keyLEb` as a decidable relation for `List.insertionSort`. -/
def keyLe (a b : List Nat) : Prop := keyLEb a b = true

instance : DecidableRel keyLe :=
  fun a b => inferInstanceAs (Decidable (keyLEb a b = true))

/-- `Cache.createKey(prefix, params)`: prefix, `:`, then the sorted
`key=JSON.stringify(value)` pairs joined by `&`.  JS object keys are
unique; `params[key]` is the unique binding (`getD` is never hit for keys
drawn from the object itself). -/
def createKey (p : List Nat) (params : List (List Nat × Json)) : List Nat :=
  p ++ 58 :: joinSep [38]
    ((List.insertionSort keyLe (params.map Prod.fst)).map
      (fun k => k ++ 61 :: jsonStringify ((lookupStr params k).getD Json.null)))

instance : IsTotal (List Nat) keyLe :=
  ⟨by
    intro a b
    unfold keyLe
    induction a generalizing b with
    | nil => left; rfl
    | cons x xs ih =>
      cases b with
      | nil => right; rfl
      | cons y ys =>
        rcases Nat.lt_trichotomy x y with h | h | h
        · left; simp [keyLEb, h]
        · subst h
          rcases ih ys with h2 | h2
          · left; simp [keyLEb, h2]
          · right; simp [keyLEb, h2]
        · right; simp [keyLEb, h, Nat.not_lt_of_gt h]⟩

instance : IsTrans (List Nat) keyLe :=
  ⟨by
    intro a b c hab hbc
    unfold keyLe at *
    induction a generalizing b c with
    | nil => rfl
    | cons x xs ih =>
      cases b with
      | nil => simp [keyLEb] at hab
      | cons y ys =>
        cases c with
        | nil => simp [keyLEb] at hbc
        | cons z zs =>
          simp only [keyLEb] at hab hbc ⊢
          split at hab
          · split at hbc
            · simp [show x < z by omega]
            · split at hbc
              · exact absurd hbc (by simp)
              · simp [show x < z by omega]
          · split at hab
            · exact absurd hab (by simp)
            · split at hbc
              · simp [show x < z by omega]
              · split at hbc
                · exact absurd hbc (by simp)
                · have hxy : x = y := by omega
                  have hyz : y = z := by omega
                  subst hxy; subst hyz
                  simp only [lt_irrefl, if_false]
                  exact ih ys zs hab hbc⟩

instance : IsAntisymm (List Nat) keyLe :=
  ⟨by
    intro a b hab hba
    unfold keyLe at *
    induction a generalizing b with
    | nil =>
      cases b with
      | nil => rfl
      | cons y ys => simp [keyLEb] at hba
    | cons x xs ih =>
      cases b with
      | nil => simp [keyLEb] at hab
      | cons y ys =>
        simp only [keyLEb] at hab hba
        by_cases h1 : x < y
        · rw [if_neg (by omega), if_pos h1] at hba
          exact absurd hba (by simp)
        · by_cases h2 : y < x
          · rw [if_neg h1, if_pos h2] at hab
            exact absurd hab (by simp)
          · have hxy : x = y := by omega
            subst hxy
            rw [if_neg h1, if_neg h1] at hab hba
            exact congrArg (x :: ·) (ih ys hab hba)⟩

/-! ## Helper lemmas: list scanning -/

theorem takeWhile_append_of_lt {p : Nat → Bool} {l : List Nat} (m : List Nat)
    (h : (l.takeWhile p).length < l.length) :
    (l ++ m).takeWhile p = l.takeWhile p := by
  induction l with
  | nil => simp at h
  | cons a l ih =>
    by_cases hp : p a
    · simp only [List.cons_append, List.takeWhile_cons_of_pos hp, List.length_cons] at *
      rw [ih (by omega)]
    · simp only [List.cons_append, List.takeWhile_cons_of_neg hp]

theorem takeWhile_all_stop {p : Nat → Bool} {l : List Nat} {a : Nat} (m : List Nat)
    (hall : ∀ x ∈ l, p x = true) (ha : p a = false) :
    (l ++ a :: m).takeWhile p = l := by
  induction l with
  | nil => simp [List.takeWhile_cons, ha]
  | cons x l ih =>
    have hx : p x = true := hall x (by simp)
    simp only [List.cons_append, List.takeWhile_cons_of_pos hx]
    rw [ih (fun y hy => hall y (by simp [hy]))]

theorem matchEol_append {r c : List Nat} {n : Nat} (h : matchEol r = some n) :
    matchEol (r ++ c) = some n := by
  match r with
  | [] => simp [matchEol] at h
  | [u] =>
    simp only [matchEol] at h
    split at h
    · cases h
      cases c with
      | nil => simp [matchEol]; omega
      | cons v t => simp only [List.cons_append, List.nil_append, matchEol]; simp_all
    · cases h
  | u :: u2 :: t =>
    simp only [matchEol] at h ⊢
    exact h

theorem matchEol_le {r : List Nat} {n : Nat} (h : matchEol r = some n) :
    n ≤ r.length := by
  match r with
  | [] => simp [matchEol] at h
  | [u] =>
    simp only [matchEol] at h
    split at h
    · cases h; simp
    · cases h
  | u :: u2 :: t =>
    simp only [matchEol] at h
    split at h
    · cases h; simp
    · split at h
      · cases h; simp
      · cases h

/-! ## Helper lemmas: the header regex -/

theorem parseHeader_mk {b : List Nat} (hpre : clMark.isPrefixOf b = true)
    {ds : List Nat} {n1 n2 : Nat} (hds : (b.drop 16).takeWhile isDigitCode = ds)
    (hne : ds.isEmpty = false)
    (h1 : matchEol ((b.drop 16).drop ds.length) = some n1)
    (h2 : matchEol (((b.drop 16).drop ds.length).drop n1) = some n2) :
    parseHeader b = some (digitsToNat ds, 16 + ds.length + n1 + n2) := by
  unfold parseHeader
  rw [if_pos hpre]
  simp only [hds, hne, h1, h2]
  simp

theorem parseHeader_dest {b : List Nat} {cl hl : Nat}
    (h : parseHeader b = some (cl, hl)) :
    clMark.isPrefixOf b = true ∧
    ∃ n1 n2,
      ((b.drop 16).takeWhile isDigitCode).isEmpty = false ∧
      matchEol ((b.drop 16).drop ((b.drop 16).takeWhile isDigitCode).length) = some n1 ∧
      matchEol (((b.drop 16).drop ((b.drop 16).takeWhile isDigitCode).length).drop n1) = some n2 ∧
      cl = digitsToNat ((b.drop 16).takeWhile isDigitCode) ∧
      hl = 16 + ((b.drop 16).takeWhile isDigitCode).length + n1 + n2 := by
  unfold parseHeader at h
  split at h
  case isFalse hp => exact absurd h (by simp)
  case isTrue hp =>
    refine ⟨hp, ?_⟩
    simp only [] at h
    split at h
    case isTrue => exact absurd h (by simp)
    case isFalse hne =>
      split at h
      case h_1 => exact absurd h (by simp)
      case h_2 n1 heq1 =>
        split at h
        case h_1 => exact absurd h (by simp)
        case h_2 n2 heq2 =>
          injection h with h1
          injection h1 with hcl hhl
          exact ⟨n1, n2, by simpa using hne, heq1, heq2, hcl.symm, hhl.symm⟩

theorem clMark_length : clMark.length = 16 := by decide

theorem parseHeader_bounds {b : List Nat} {cl hl : Nat}
    (h : parseHeader b = some (cl, hl)) : 0 < hl ∧ hl ≤ b.length := by
  obtain ⟨hpre, n1, n2, hne, h1, h2, hcl, hhl⟩ := parseHeader_dest h
  have hpl : 16 ≤ b.length := by
    have := (List.isPrefixOf_iff_prefix.mp hpre).length_le
    simpa [clMark_length] using this
  have hds : ((b.drop 16).takeWhile isDigitCode).length ≤ (b.drop 16).length :=
    (List.takeWhile_prefix _).length_le
  have hm1 := matchEol_le h1
  have hm2 := matchEol_le h2
  have hgl : (b.drop 16).length = b.length - 16 := List.length_drop 16 b
  simp only [List.length_drop] at hm1 hm2
  omega

theorem parseHeader_append {b c : List Nat} {cl hl : Nat}
    (h : parseHeader b = some (cl, hl)) : parseHeader (b ++ c) = some (cl, hl) := by
  obtain ⟨hpre, n1, n2, hne, h1, h2, hcl, hhl⟩ := parseHeader_dest h
  have hpl : 16 ≤ b.length := by
    have := (List.isPrefixOf_iff_prefix.mp hpre).length_le
    simpa [clMark_length] using this
  have hdrop : (b ++ c).drop 16 = b.drop 16 ++ c :=
    List.drop_append_of_le_length hpl
  -- the digit run ends strictly inside `b.drop 16` (an eol follows it)
  have hlt : ((b.drop 16).takeWhile isDigitCode).length < (b.drop 16).length := by
    by_contra hge
    have hle : ((b.drop 16).takeWhile isDigitCode).length ≤ (b.drop 16).length :=
      (List.takeWhile_prefix _).length_le
    have heq : ((b.drop 16).takeWhile isDigitCode).length = (b.drop 16).length := by omega
    have hnil : (b.drop 16).drop ((b.drop 16).takeWhile isDigitCode).length = [] := by
      rw [heq]
      exact List.drop_length _
    rw [hnil] at h1
    simp [matchEol] at h1
  have hstay : ((b ++ c).drop 16).takeWhile isDigitCode = (b.drop 16).takeWhile isDigitCode := by
    rw [hdrop]
    exact takeWhile_append_of_lt c hlt
  set ds := (b.drop 16).takeWhile isDigitCode with hds
  have hdl : ds.length ≤ (b.drop 16).length := le_of_lt hlt
  have hdrop2 : ((b ++ c).drop 16).drop ds.length = (b.drop 16).drop ds.length ++ c := by
    rw [hdrop]
    exact List.drop_append_of_le_length hdl
  have hm1 := matchEol_le h1
  simp only [List.length_drop] at hm1
  have hdrop3 : (((b ++ c).drop 16).drop ds.length).drop n1 =
      ((b.drop 16).drop ds.length).drop n1 ++ c := by
    rw [hdrop2]
    refine List.drop_append_of_le_length ?_
    simp only [List.length_drop]
    omega
  have h1' : matchEol (((b ++ c).drop 16).drop ds.length) = some n1 := by
    rw [hdrop2]; exact matchEol_append h1
  have h2' : matchEol ((((b ++ c).drop 16).drop ds.length).drop n1) = some n2 := by
    rw [hdrop3]; exact matchEol_append h2
  rw [hcl, hhl]
  exact parseHeader_mk (by rw [List.isPrefixOf_iff_prefix] at *; exact hpre.trans (List.prefix_append b c)) hstay hne h1' h2'

/-! ## Helper lemmas: the extraction loop -/

theorem drain_stop_none {b : List Nat} (h : parseHeader b = none) :
    drain b = ([], b) := by
  rw [drain]
  split
  · rfl
  · simp_all

theorem drain_stop_wait {b : List Nat} {cl hl : Nat}
    (h : parseHeader b = some (cl, hl)) (hlen : b.length < hl + cl) :
    drain b = ([], b) := by
  rw [drain]
  split
  · rfl
  · rename_i cl2 hl2 heq
    rw [h] at heq
    injection heq with heq1
    injection heq1 with hc hh
    subst hc; subst hh
    rw [dif_pos hlen]

theorem drain_step {b : List Nat} {cl hl : Nat}
    (h : parseHeader b = some (cl, hl)) (hlen : ¬ b.length < hl + cl) :
    drain b =
      ((match jsonParse ((b.drop hl).take cl) with
        | some j => FramerEvent.dispatch j
        | none => FramerEvent.emit (mkParseErrorResp ((b.drop hl).take cl))) ::
          (drain (b.drop (hl + cl))).1,
       (drain (b.drop (hl + cl))).2) := by
  conv_lhs => rw [drain]
  split
  · simp_all
  · rename_i cl2 hl2 heq
    rw [h] at heq
    injection heq with heq1
    injection heq1 with hc hh
    subst hc; subst hh
    rw [dif_neg hlen]

theorem drain_append (b c : List Nat) :
    drain (b ++ c) =
      ((drain b).1 ++ (drain ((drain b).2 ++ c)).1,
       (drain ((drain b).2 ++ c)).2) := by
  suffices H : ∀ n (b : List Nat), b.length = n → ∀ c : List Nat,
      drain (b ++ c) =
        ((drain b).1 ++ (drain ((drain b).2 ++ c)).1, (drain ((drain b).2 ++ c)).2) by
    exact H b.length b rfl c
  intro n
  induction n using Nat.strong_induction_on with
  | _ n ih =>
  intro b hn c
  subst hn
  match hph : parseHeader b with
  | none =>
    rw [drain_stop_none hph]
    simp
  | some (cl, hl) =>
    by_cases hlen : b.length < hl + cl
    · rw [drain_stop_wait hph hlen]
      simp
    · have hph2 : parseHeader (b ++ c) = some (cl, hl) := parseHeader_append hph
      have hb := parseHeader_bounds hph
      have hlen2 : ¬ (b ++ c).length < hl + cl := by
        simp only [List.length_append]
        omega
      have hdropeq : (b ++ c).drop (hl + cl) = b.drop (hl + cl) ++ c :=
        List.drop_append_of_le_length (by omega)
      have hpayload : ((b ++ c).drop hl).take cl = (b.drop hl).take cl := by
        rw [List.drop_append_of_le_length (by omega : hl ≤ b.length)]
        exact List.take_append_of_le_length (by simp only [List.length_drop]; omega)
      have hrec := ih (b.drop (hl + cl)).length
        (by simp only [List.length_drop]; omega) (b.drop (hl + cl)) rfl c
      rw [drain_step hph hlen, drain_step hph2 hlen2, hdropeq, hpayload, hrec]
      simp

theorem drain_residual (b : List Nat) : drain ((drain b).2) = ([], (drain b).2) := by
  suffices H : ∀ n (b : List Nat), b.length = n → drain ((drain b).2) = ([], (drain b).2) by
    exact H b.length b rfl
  intro n
  induction n using Nat.strong_induction_on with
  | _ n ih =>
  intro b hn
  subst hn
  match hph : parseHeader b with
  | none =>
    rw [drain_stop_none hph, drain_stop_none hph]
  | some (cl, hl) =>
    by_cases hlen : b.length < hl + cl
    · rw [drain_stop_wait hph hlen, drain_stop_wait hph hlen]
    · have hb := parseHeader_bounds hph
      rw [drain_step hph hlen]
      exact ih (b.drop (hl + cl)).length (by simp only [List.length_drop]; omega)
        (b.drop (hl + cl)) rfl

theorem feedAll_eq_drain_flatten (chunks : List (List Nat)) (b : List Nat)
    (hq : drain b = ([], b)) :
    feedAll b chunks = ((drain (b ++ chunks.flatten)).1, (drain (b ++ chunks.flatten)).2) := by
  induction chunks generalizing b with
  | nil =>
    simp only [feedAll, List.flatten_nil, List.append_nil]
    rw [hq]
  | cons c cs ih =>
    simp only [feedAll, List.flatten_cons]
    have hq2 : drain ((drain (b ++ c)).2) = ([], (drain (b ++ c)).2) := drain_residual _
    rw [ih _ hq2]
    have hda := drain_append (b ++ c) cs.flatten
    rw [List.append_assoc] at hda
    rw [hda]

theorem parseHeader_non_header_head {u : Nat} (l : List Nat) (hu : u ≠ 67) :
    parseHeader (u :: l) = none := by
  have hnp : ¬ (clMark.isPrefixOf (u :: l) = true) := by
    rw [List.isPrefixOf_iff_prefix]
    intro hpre
    have h67 : clMark = 67 :: jstr "ontent-Length: " := by decide
    rw [h67, List.cons_prefix_cons] at hpre
    exact hu hpre.1.symm
  unfold parseHeader
  rw [if_neg hnp]

/-- C10: no resynchronization.  If the buffer starts with junk that no
continuation can turn into a header match, those bytes are never removed:
however many further chunks arrive, no event is ever produced and the
buffer only grows. -/
theorem dead_buffer_never_recovers (b : List Nat)
    (hdead : ∀ c : List Nat, parseHeader (b ++ c) = none)
    (chunks : List (List Nat)) :
    feedAll b chunks = ([], b ++ chunks.flatten) := by
  induction chunks generalizing b with
  | nil => simp [feedAll]
  | cons c cs ih =>
    simp only [feedAll, List.flatten_cons]
    rw [drain_stop_none (hdead c)]
    have hdead2 : ∀ d, parseHeader ((b ++ c) ++ d) = none := by
      intro d
      rw [List.append_assoc]
      exact hdead (c ++ d)
    rw [ih (b ++ c) hdead2]
    simp [List.append_assoc]

/-- Witness for C10: the concrete junk byte `X` (88) blackholes a
subsequent perfectly valid frame. -/
theorem dead_buffer_never_recovers_witness :
    feedAll [88] [mkFrame (jstr "\x7b\x7d")] =
      ([], [88] ++ ([mkFrame (jstr "\x7b\x7d")]).flatten) :=
  dead_buffer_never_recovers [88]
    (fun c => parseHeader_non_header_head c (by decide)) [mkFrame (jstr "\x7b\x7d")]

/-! ## Helper lemmas: decimal digits and well-formed frames -/

theorem natDigitsGo_digits {fuel n : Nat} (h : n < fuel) :
    ∀ x ∈ natDigitsGo fuel n, isDigitCode x = true := by
  induction fuel generalizing n with
  | zero => omega
  | succ f ih =>
    intro x hx
    simp only [natDigitsGo] at hx
    split at hx
    · rename_i h10
      simp only [List.mem_singleton] at hx
      subst hx
      simp only [isDigitCode, Bool.and_eq_true, decide_eq_true_eq]
      omega
    · rename_i h10
      have hdiv : n / 10 < n := Nat.div_lt_self (by omega) (by omega)
      rcases List.mem_append.mp hx with hx1 | hx2
      · exact ih (by omega) x hx1
      · simp only [List.mem_singleton] at hx2
        subst hx2
        have := Nat.mod_lt n (show 0 < 10 by omega)
        simp only [isDigitCode, Bool.and_eq_true, decide_eq_true_eq]
        omega

theorem natDigitsGo_ne_nil {fuel n : Nat} (h : n < fuel) :
    natDigitsGo fuel n ≠ [] := by
  cases fuel with
  | zero => omega
  | succ f =>
    simp only [natDigitsGo]
    split
    · simp
    · simp

theorem digitsToNat_append_one (xs : List Nat) (y : Nat) :
    digitsToNat (xs ++ [y]) = digitsToNat xs * 10 + (y - 48) := by
  unfold digitsToNat
  rw [List.foldl_append]
  rfl

theorem digitsToNat_natDigitsGo {fuel n : Nat} (h : n < fuel) :
    digitsToNat (natDigitsGo fuel n) = n := by
  induction fuel generalizing n with
  | zero => omega
  | succ f ih =>
    simp only [natDigitsGo]
    split
    · rename_i h10
      simp [digitsToNat]
    · rename_i h10
      have hdiv : n / 10 < n := Nat.div_lt_self (by omega) (by omega)
      rw [digitsToNat_append_one, ih (by omega)]
      have := Nat.div_add_mod n 10
      omega

theorem digitsToNat_natDigits (n : Nat) : digitsToNat (natDigits n) = n :=
  digitsToNat_natDigitsGo (Nat.lt_succ_self n)

theorem mkFrame_assoc (p rest : List Nat) :
    mkFrame p ++ rest =
      clMark ++ (natDigits p.length ++ (13 :: 10 :: 13 :: 10 :: (p ++ rest))) := by
  simp [mkFrame, List.append_assoc]

theorem parseHeader_mkFrame (p rest : List Nat) :
    parseHeader (mkFrame p ++ rest) =
      some (p.length, 16 + (natDigits p.length).length + 4) := by
  have hb := mkFrame_assoc p rest
  have hpre : clMark.isPrefixOf (mkFrame p ++ rest) = true := by
    rw [List.isPrefixOf_iff_prefix, hb]
    exact List.prefix_append _ _
  have hdrop : (mkFrame p ++ rest).drop 16 =
      natDigits p.length ++ (13 :: 10 :: 13 :: 10 :: (p ++ rest)) := by
    rw [hb]
    exact List.drop_left' clMark_length
  have hds : ((mkFrame p ++ rest).drop 16).takeWhile isDigitCode = natDigits p.length := by
    rw [hdrop]
    exact takeWhile_all_stop _ (natDigitsGo_digits (Nat.lt_succ_self _)) (by decide)
  have hdl : ((mkFrame p ++ rest).drop 16).drop (natDigits p.length).length =
      13 :: 10 :: 13 :: 10 :: (p ++ rest) := by
    rw [hdrop]
    exact List.drop_left _ _
  have h1 : matchEol (((mkFrame p ++ rest).drop 16).drop (natDigits p.length).length) =
      some 2 := by
    rw [hdl]; rfl
  have h2 : matchEol ((((mkFrame p ++ rest).drop 16).drop (natDigits p.length).length).drop 2) =
      some 2 := by
    rw [hdl]; rfl
  have hne : (natDigits p.length).isEmpty = false := by
    rw [List.isEmpty_eq_false_iff_exists_mem]
    rcases List.exists_mem_of_ne_nil _ (natDigitsGo_ne_nil (Nat.lt_succ_self p.length)) with ⟨x, hx⟩
    exact ⟨x, hx⟩
  have hmain := parseHeader_mk hpre hds hne h1 h2
  rw [digitsToNat_natDigits p.length] at hmain
  have h4 : 16 + (natDigits p.length).length + 2 + 2 =
      16 + (natDigits p.length).length + 4 := by omega
  rw [h4] at hmain
  exact hmain

theorem mkFrame_length (p : List Nat) :
    (mkFrame p).length = 16 + (natDigits p.length).length + 4 + p.length := by
  simp [mkFrame, clMark_length]
  omega

theorem drain_mkFrame (p rest : List Nat) :
    drain (mkFrame p ++ rest) =
      ((match jsonParse p with
        | some j => FramerEvent.dispatch j
        | none => FramerEvent.emit (mkParseErrorResp p)) :: (drain rest).1,
       (drain rest).2) := by
  have hph := parseHeader_mkFrame p rest
  have hml := mkFrame_length p
  have hlen : ¬ (mkFrame p ++ rest).length <
      (16 + (natDigits p.length).length + 4) + p.length := by
    simp only [List.length_append]
    omega
  have hpayload : ((mkFrame p ++ rest).drop (16 + (natDigits p.length).length + 4)).take
      p.length = p := by
    have hsplit : mkFrame p ++ rest =
        (clMark ++ natDigits p.length ++ [13, 10, 13, 10]) ++ (p ++ rest) := by
      simp [mkFrame, List.append_assoc]
    rw [hsplit, List.drop_left' (by simp [clMark_length]; omega), List.take_left]
  have hrest : (mkFrame p ++ rest).drop ((16 + (natDigits p.length).length + 4) + p.length) =
      rest := by
    refine List.drop_left' ?_
    omega
  rw [drain_step hph hlen, hpayload, hrest]

/-- Counterexample to C3 as stated: for the concrete invalid payload
`{]`, the framer does emit exactly one -32700 Response and continues,
but the Response's id is the number 0 — `sendError` coerces the `null`
id via `id || 0` — not `null` as claimed. -/
theorem parse_error_id_zero_cex :
    drain (mkFrame (jstr "\x7b]")) =
      ([FramerEvent.emit (mkParseErrorResp (jstr "\x7b]"))], []) ∧
    getField (mkParseErrorResp (jstr "\x7b]")) (jstr "id") = some (Json.num 0) ∧
    Json.num 0 ≠ Json.null := by
  refine ⟨?_, rfl, by simp⟩
  have h := drain_mkFrame (jstr "\x7b]") []
  rw [List.append_nil] at h
  rw [h, drain_stop_none (by decide)]
  rfl

/-- C3 (amended): whenever an extracted frame's payload is not valid
JSON, the framer emits exactly one parse-error Response whose
`error.code` is -32700 and whose `id` is 0 (the `null` id is coerced to
0 by `sendError`'s `id || 0`), and then continues the extraction loop
over whatever complete frames follow in the buffer. -/
theorem parse_error_emits_and_continues (p rest : List Nat)
    (hbad : jsonParse p = none) :
    drain (mkFrame p ++ rest) =
      (FramerEvent.emit (mkParseErrorResp p) :: (drain rest).1, (drain rest).2) ∧
    getField (mkParseErrorResp p) (jstr "id") = some (Json.num 0) ∧
    (getField (mkParseErrorResp p) (jstr "error")).bind
      (fun e => getField e (jstr "code")) = some (Json.num (-32700)) := by
  refine ⟨?_, rfl, rfl⟩
  rw [drain_mkFrame, hbad]

/-- Witness for the amended C3 at the payload `{]` followed by a valid
`{}` frame, which is still dispatched afterwards. -/
theorem parse_error_emits_and_continues_witness :
    jsonParse (jstr "\x7b]") = none ∧
    (drain (mkFrame (jstr "\x7b]") ++ mkFrame (jstr "\x7b\x7d")) =
      (FramerEvent.emit (mkParseErrorResp (jstr "\x7b]")) ::
        (drain (mkFrame (jstr "\x7b\x7d"))).1, (drain (mkFrame (jstr "\x7b\x7d"))).2) ∧
     getField (mkParseErrorResp (jstr "\x7b]")) (jstr "id") = some (Json.num 0) ∧
     (getField (mkParseErrorResp (jstr "\x7b]")) (jstr "error")).bind
       (fun e => getField e (jstr "code")) = some (Json.num (-32700))) :=
  ⟨rfl, parse_error_emits_and_continues _ _ rfl⟩


/-- C2: chunking invariance of the framer.  For every input and every way
of splitting it into successive chunks, feeding the chunks one by one
produces exactly the same dispatched-event sequence (and final buffer) as
delivering all bytes in one chunk; in particular a header plus partial
payload followed by the remainder dispatches exactly the one message, and
one chunk holding two back-to-back frames dispatches both before more
input is requested. -/
theorem chunked_feed_eq_single_feed :
    (∀ chunks : List (List Nat), feedAll [] chunks = drain chunks.flatten) ∧
    feedAll [] [(mkFrame (jstr "\x7b\x7d")).take 22, (mkFrame (jstr "\x7b\x7d")).drop 22] =
      ([FramerEvent.dispatch (Json.obj JsonObj.nil)], []) ∧
    feedAll [] [mkFrame (jstr "\x7b\x7d") ++ mkFrame (jstr "[]")] =
      ([FramerEvent.dispatch (Json.obj JsonObj.nil),
        FramerEvent.dispatch (Json.arr JsonArr.nil)], []) := by
  have hgen : ∀ chunks : List (List Nat), feedAll [] chunks = drain chunks.flatten := by
    intro chunks
    have h0 : drain ([] : List Nat) = ([], []) := drain_stop_none (by decide)
    have h := feedAll_eq_drain_flatten chunks [] h0
    simpa using h
  refine ⟨hgen, ?_, ?_⟩
  · rw [hgen]
    rw [show ([(mkFrame (jstr "\x7b\x7d")).take 22,
        (mkFrame (jstr "\x7b\x7d")).drop 22] : List (List Nat)).flatten =
      mkFrame (jstr "\x7b\x7d") ++ [] from by
        simp [List.flatten]]
    rw [drain_mkFrame, drain_stop_none (by decide)]
    rfl
  · rw [hgen]
    rw [show ([mkFrame (jstr "\x7b\x7d") ++ mkFrame (jstr "[]")] :
        List (List Nat)).flatten =
      mkFrame (jstr "\x7b\x7d") ++ (mkFrame (jstr "[]") ++ []) from by
        simp [List.flatten]]
    rw [drain_mkFrame, drain_mkFrame, drain_stop_none (by decide)]
    rfl

/-- C1 (code bug at the failing input): the valid Request
`{"jsonrpc":"2.0","id":1,"method":"é"}` survives `JSON.parse ∘
JSON.stringify`, yet `parse(frame(serialize(m)))` dispatches nothing:
`sendMessage` frames with the UTF-8 byte length (38) while the
extraction loop compares it against the buffer's UTF-16 unit count (37
payload units), so the framer waits for data that never comes.  The
identical message with ASCII method `"x"` round-trips, isolating the
slip to the byte/unit mismatch. -/
theorem framing_roundtrip_utf8_bug :
    (jsonParse (jsonStringify msgUnicode) = some msgUnicode ∧
     drain (frameMessage msgUnicode) = ([], frameMessage msgUnicode)) ∧
    drain (frameMessage msgAscii) = ([FramerEvent.dispatch msgAscii], []) := by
  refine ⟨⟨by rfl, ?_⟩, ?_⟩
  · exact drain_stop_wait
      (show parseHeader (frameMessage msgUnicode) = some (38, 22) from rfl) (by decide)
  · rw [drain_step (show parseHeader (frameMessage msgAscii) = some (37, 22) from rfl)
      (by decide)]
    rw [show List.drop (22 + 37) (frameMessage msgAscii) = ([] : List Nat) from rfl]
    rw [drain_stop_none (show parseHeader ([] : List Nat) = none from rfl)]
    rfl

/-! ## Helper lemmas: the dispatcher -/

theorem handleMessage_req (reqH : List (List Nat × (Option Json → HandlerResult)))
    (ntfH : List (List Nat × (Option Json → NotifResult)))
    (idJ : Json) (m : List Nat) (params : Option Json) :
    handleMessage reqH ntfH (reqMsg idJ m params) =
      match lookupStr reqH m with
      | none =>
        some (sendErrorJson (some idJ) (-32601) (jstr "Method not found")
          (some (Json.obj (listToObj [(jstr "method", Json.str m)]))))
      | some h =>
        match h params with
        | .ok r => some (mkResultResp idJ r)
        | .throws e =>
          match e with
          | .errObj emsg (some c) ctx =>
            some (sendErrorJson (some idJ) (-32000) emsg
              (some (Json.obj (listToObj ([(jstr "code", Json.str c)] ++
                (match ctx with
                 | some cv => [(jstr "context", cv)]
                 | none => []))))))
          | .errObj emsg none _ =>
            some (sendErrorJson (some idJ) (-32603) emsg none)
          | .nonError _ =>
            some (sendErrorJson (some idJ) (-32603) (jstr "Internal error") none) := by
  have e0 : (true = false) = False := eq_false (by decide)
  have e1 : (jstr "jsonrpc" = jstr "id") = False := eq_false (by decide)
  have e2 : (jstr "method" = jstr "id") = False := eq_false (by decide)
  have e3 : (jstr "jsonrpc" = jstr "method") = False := eq_false (by decide)
  have e4 : (jstr "id" = jstr "method") = False := eq_false (by decide)
  have e5 : (jstr "jsonrpc" = jstr "params") = False := eq_false (by decide)
  have e6 : (jstr "id" = jstr "params") = False := eq_false (by decide)
  have e7 : (jstr "method" = jstr "params") = False := eq_false (by decide)
  cases params <;>
    simp only [handleMessage, reqMsg, hasField, getField, findField, listToObj,
      List.cons_append, List.nil_append,
      e0, e1, e2, e3, e4, e5, e6, e7, eq_self_iff_true, if_true, if_false,
      Option.isSome_some, Option.getD_some]

theorem handleMessage_ntf (reqH : List (List Nat × (Option Json → HandlerResult)))
    (ntfH : List (List Nat × (Option Json → NotifResult)))
    (m : List Nat) (params : Option Json) :
    handleMessage reqH ntfH (ntfMsg m params) =
      match lookupStr ntfH m with
      | some h =>
        match h params with
        | .ok => none
        | .throws _ => some (sendErrorJson none (-32603) (jstr "Internal error") none)
      | none => none := by
  have e0 : (false = false) = True := eq_true rfl
  have e1 : (jstr "jsonrpc" = jstr "id") = False := eq_false (by decide)
  have e2 : (jstr "method" = jstr "id") = False := eq_false (by decide)
  have e3 : (jstr "params" = jstr "id") = False := eq_false (by decide)
  have e4 : (jstr "jsonrpc" = jstr "method") = False := eq_false (by decide)
  have e5 : (jstr "jsonrpc" = jstr "params") = False := eq_false (by decide)
  have e6 : (jstr "method" = jstr "params") = False := eq_false (by decide)
  cases params <;>
    simp only [handleMessage, ntfMsg, hasField, getField, findField, listToObj,
      List.cons_append, List.nil_append,
      e0, e1, e2, e3, e4, e5, e6, eq_self_iff_true, if_true, if_false,
      Option.isSome_none, Option.isSome_some]

/-- C5: a Request (message carrying an id) naming an unregistered method
always gets a Response with `error.code = -32601` and
`error.data.method` equal to the requested method name; a Notification
(no id) naming an unregistered method produces no output at all. -/
theorem unknown_method_behavior :
    (∀ (reqH : List (List Nat × (Option Json → HandlerResult)))
       (ntfH : List (List Nat × (Option Json → NotifResult)))
       (idJ : Json) (m : List Nat) (params : Option Json),
       lookupStr reqH m = none →
       handleMessage reqH ntfH (reqMsg idJ m params) =
         some (sendErrorJson (some idJ) (-32601) (jstr "Method not found")
           (some (Json.obj (listToObj [(jstr "method", Json.str m)])))) ∧
       ((sendErrorJson (some idJ) (-32601) (jstr "Method not found")
           (some (Json.obj (listToObj [(jstr "method", Json.str m)])))) |> (getField · (jstr "error"))).bind (fun e => getField e (jstr "code")) =
         some (Json.num (-32601)) ∧
       ((sendErrorJson (some idJ) (-32601) (jstr "Method not found")
           (some (Json.obj (listToObj [(jstr "method", Json.str m)])))) |> (getField · (jstr "error"))).bind (fun e => (getField e (jstr "data")).bind
               (fun d => getField d (jstr "method"))) = some (Json.str m)) ∧
    (∀ (reqH : List (List Nat × (Option Json → HandlerResult)))
       (ntfH : List (List Nat × (Option Json → NotifResult)))
       (m : List Nat) (params : Option Json),
       lookupStr ntfH m = none →
       handleMessage reqH ntfH (ntfMsg m params) = none) := by
  constructor
  · intro reqH ntfH idJ m params hlook
    refine ⟨?_, rfl, rfl⟩
    rw [handleMessage_req, hlook]
  · intro reqH ntfH m params hlook
    rw [handleMessage_ntf, hlook]

/-- Witness for C5: no handlers registered, Request id 7 method `nope`
answered with -32601 naming `nope`; the same method as a Notification
produces nothing. -/
theorem unknown_method_behavior_witness :
    (handleMessage [] [] (reqMsg (Json.num 7) (jstr "nope") none) =
       some (sendErrorJson (some (Json.num 7)) (-32601) (jstr "Method not found")
         (some (Json.obj (listToObj [(jstr "method", Json.str (jstr "nope"))])))) ∧
     ((sendErrorJson (some (Json.num 7)) (-32601) (jstr "Method not found")
         (some (Json.obj (listToObj [(jstr "method", Json.str (jstr "nope"))])))) |> (getField · (jstr "error"))).bind (fun e => getField e (jstr "code")) =
       some (Json.num (-32601)) ∧
     ((sendErrorJson (some (Json.num 7)) (-32601) (jstr "Method not found")
         (some (Json.obj (listToObj [(jstr "method", Json.str (jstr "nope"))])))) |> (getField · (jstr "error"))).bind (fun e => (getField e (jstr "data")).bind
             (fun d => getField d (jstr "method"))) = some (Json.str (jstr "nope"))) ∧
    handleMessage [] [] (ntfMsg (jstr "nope") none) = none :=
  ⟨unknown_method_behavior.1 [] [] (Json.num 7) (jstr "nope") none rfl,
   unknown_method_behavior.2 [] [] (jstr "nope") none rfl⟩

/-- Counterexample to C4 as stated: a thrown non-`Error` value that does
carry a string `code` field (`{code: "E_FAIL"}`) is answered with
`-32603 "Internal error"` and no data — not with `-32000` and
`data = {code, context}` — because the dispatcher first requires
`error instanceof Error`. -/
theorem handler_failure_noncode_cex :
    handleMessage
      [(jstr "m", fun _ => HandlerResult.throws (JsThrown.nonError (Json.obj (listToObj
        [(jstr "code", Json.str (jstr "E_FAIL"))]))))]
      [] (reqMsg (Json.num 1) (jstr "m") none) =
      some (sendErrorJson (some (Json.num 1)) (-32603) (jstr "Internal error") none) ∧
    ((sendErrorJson (some (Json.num 1)) (-32603) (jstr "Internal error") none)
      |> (getField · (jstr "error"))).bind (fun e => getField e (jstr "code")) =
      some (Json.num (-32603)) ∧
    (Json.num (-32603) : Json) ≠ Json.num (-32000) := by
  refine ⟨rfl, rfl, ?_⟩
  intro h
  injection h with h2
  norm_num at h2

/-- C4 (amended): when a Request handler's invocation fails, the
dispatcher classifies the thrown value as the code does: a thrown
`Error` instance with a string `code` field gets `-32000` with
`data = {code, context}` (context carried through when present); a
thrown `Error` instance without a string `code` gets `-32603` with the
error's message text; any non-`Error` thrown value gets `-32603` with
the literal `Internal error`. -/
theorem handler_failure_mapping
    (reqH : List (List Nat × (Option Json → HandlerResult)))
    (ntfH : List (List Nat × (Option Json → NotifResult)))
    (idJ : Json) (m : List Nat) (params : Option Json)
    (hfun : Option Json → HandlerResult) (e : JsThrown)
    (hlook : lookupStr reqH m = some hfun) (hrun : hfun params = .throws e) :
    (∀ emsg c ctx, e = .errObj emsg (some c) ctx →
      handleMessage reqH ntfH (reqMsg idJ m params) =
        some (sendErrorJson (some idJ) (-32000) emsg
          (some (Json.obj (listToObj ([(jstr "code", Json.str c)] ++
            (match ctx with
             | some cv => [(jstr "context", cv)]
             | none => []))))))) ∧
    (∀ emsg ctx, e = .errObj emsg none ctx →
      handleMessage reqH ntfH (reqMsg idJ m params) =
        some (sendErrorJson (some idJ) (-32603) emsg none)) ∧
    (∀ v, e = .nonError v →
      handleMessage reqH ntfH (reqMsg idJ m params) =
        some (sendErrorJson (some idJ) (-32603) (jstr "Internal error") none)) := by
  refine ⟨?_, ?_, ?_⟩
  · intro emsg c ctx he
    subst he
    rw [handleMessage_req, hlook]
    simp only [hrun]
  · intro emsg ctx he
    subst he
    rw [handleMessage_req, hlook]
    simp only [hrun]
  · intro v he
    subst he
    rw [handleMessage_req, hlook]
    simp only [hrun]

/-- Witness for the amended C4: a structured domain failure (an Error
instance with code `RATE_LIMITED` and a context) is mapped to -32000
with `data = {code, context}`. -/
theorem handler_failure_mapping_witness :
    handleMessage
      [(jstr "m", fun _ => HandlerResult.throws (JsThrown.errObj (jstr "boom")
          (some (jstr "RATE_LIMITED")) (some (Json.str (jstr "ctx")))))] []
      (reqMsg (Json.num 7) (jstr "m") none) =
      some (sendErrorJson (some (Json.num 7)) (-32000) (jstr "boom")
        (some (Json.obj (listToObj
          [(jstr "code", Json.str (jstr "RATE_LIMITED")),
           (jstr "context", Json.str (jstr "ctx"))])))) :=
  (handler_failure_mapping
    [(jstr "m", fun _ => HandlerResult.throws (JsThrown.errObj (jstr "boom")
        (some (jstr "RATE_LIMITED")) (some (Json.str (jstr "ctx")))))] []
    (Json.num 7) (jstr "m") none
    (fun _ => HandlerResult.throws (JsThrown.errObj (jstr "boom")
        (some (jstr "RATE_LIMITED")) (some (Json.str (jstr "ctx")))))
    (JsThrown.errObj (jstr "boom") (some (jstr "RATE_LIMITED")) (some (Json.str (jstr "ctx"))))
    rfl rfl).1 (jstr "boom") (jstr "RATE_LIMITED") (some (Json.str (jstr "ctx"))) rfl

/-! ## Rate limiter -/

theorem consume_fresh_full (C R t : ℚ) :
    TokenBucket.consume ⟨C, R, C, t⟩ t C = (true, ⟨C, R, 0, t⟩) := by
  unfold TokenBucket.consume TokenBucket.refill
  simp [sub_self]

theorem consume_fresh_empty (C R t : ℚ) (hC : 0 ≤ C) :
    TokenBucket.consume ⟨C, R, 0, t⟩ t 1 = (false, ⟨C, R, 0, t⟩) := by
  unfold TokenBucket.consume TokenBucket.refill
  simp [sub_self, min_eq_right hC]

theorem waitTime_fresh_empty (C R t : ℚ) (hC : 0 ≤ C) :
    TokenBucket.waitTimeMs ⟨C, R, 0, t⟩ t 1 = ((1 - 0) / R * 1000, ⟨C, R, 0, t⟩) := by
  unfold TokenBucket.waitTimeMs TokenBucket.refill
  simp [sub_self, min_eq_right hC]

/-- C6: on a fresh rate-limiter key with capacity C and refill rate R, a
check for C tokens succeeds immediately; an immediately following check
for one more token fails without sleeping, and the failure carries the
wait-time estimate `⌈(1 - 0)/R * 1000⌉` ms — `ceil((n - available) /
refillRate * 1000)` with `n = 1`, `available = 0` — which is strictly
positive. -/
theorem rate_limiter_capacity_edge (C R t : ℚ) (key : List Nat)
    (hC : 0 < C) (hR : 0 < R) :
    (checkLimit ⟨C, R, []⟩ key C t).1 = none ∧
    (checkLimit (checkLimit ⟨C, R, []⟩ key C t).2 key 1 t).1 =
      some ⌈(1 - 0) / R * 1000⌉ ∧
    0 < ⌈(1 - 0) / R * 1000⌉ := by
  have h1 : checkLimit ⟨C, R, []⟩ key C t = (none, ⟨C, R, [(key, ⟨C, R, 0, t⟩)]⟩) := by
    unfold checkLimit
    simp [lookupStr, consume_fresh_full, setAssoc]
  have h2 : checkLimit ⟨C, R, [(key, ⟨C, R, 0, t⟩)]⟩ key 1 t =
      (some ⌈(1 - 0) / R * 1000⌉, ⟨C, R, [(key, ⟨C, R, 0, t⟩)]⟩) := by
    unfold checkLimit
    simp [lookupStr, setAssoc, consume_fresh_empty C R t hC.le,
      waitTime_fresh_empty C R t hC.le]
  have hpos : (0 : ℚ) < (1 - 0) / R * 1000 := by
    rw [sub_zero]
    exact mul_pos (div_pos one_pos hR) (by norm_num)
  refine ⟨by rw [h1], by rw [h1, h2], Int.ceil_pos.mpr hpos⟩

/-- Witness for C6 at capacity 100, refill rate 10, time 0. -/
theorem rate_limiter_capacity_edge_witness :
    (0 : ℚ) < 100 ∧ (0 : ℚ) < 10 ∧
    ((checkLimit ⟨100, 10, []⟩ (jstr "k") 100 0).1 = none ∧
     (checkLimit (checkLimit ⟨100, 10, []⟩ (jstr "k") 100 0).2 (jstr "k") 1 0).1 =
       some ⌈((1 : ℚ) - 0) / 10 * 1000⌉ ∧
     0 < ⌈((1 : ℚ) - 0) / 10 * 1000⌉) :=
  ⟨by norm_num, by norm_num,
   rate_limiter_capacity_edge 100 10 0 (jstr "k") (by norm_num) (by norm_num)⟩

/-! ## Retry policy -/

theorem retryGo_all_fail {α : Type} (opts : RetryOptions) (op : Nat → Except JsError α)
    (rnd : Nat → ℚ) (fErr : Nat → JsError) :
    ∀ fuel a, a + fuel = opts.maxAttempts → 1 ≤ a →
    (∀ i, a ≤ i → i ≤ opts.maxAttempts →
      op i = .error (fErr i) ∧ opts.retryCondition (fErr i) = true) →
    (retryGo opts op rnd a fuel).result = .errored (fErr opts.maxAttempts) ∧
    (retryGo opts op rnd a fuel).attemptsMade = opts.maxAttempts := by
  intro fuel
  induction fuel with
  | zero =>
    intro a ha h1 hall
    obtain ⟨hop, _⟩ := hall a le_rfl (by omega)
    have haM : a = opts.maxAttempts := by omega
    rw [retryGo, hop]
    simp [haM]
  | succ f ih =>
    intro a ha h1 hall
    obtain ⟨hop, hcond⟩ := hall a le_rfl (by omega)
    have haM : ¬ (a = opts.maxAttempts) := by omega
    rw [retryGo, hop]
    simp only [hcond, Bool.not_true, Bool.or_false, decide_eq_true_eq, if_neg haM]
    exact ih (a + 1) (by omega) (by omega)
      (fun i hi1 hi2 => hall i (by omega) hi2)

/-- C7: an operation that fails on every attempt with a failure the retry
condition accepts is invoked exactly `maxAttempts` times, and the last
observed failure value itself propagates out unchanged. -/
theorem retry_exhaustion {α : Type} (opts : RetryOptions) (op : Nat → Except JsError α)
    (rnd : Nat → ℚ) (fErr : Nat → JsError) (hM : 1 ≤ opts.maxAttempts)
    (hall : ∀ i, 1 ≤ i → i ≤ opts.maxAttempts →
      op i = .error (fErr i) ∧ opts.retryCondition (fErr i) = true) :
    (withRetry opts op rnd).result = .errored (fErr opts.maxAttempts) ∧
    (withRetry opts op rnd).attemptsMade = opts.maxAttempts := by
  unfold withRetry
  rw [if_neg (by omega)]
  exact retryGo_all_fail opts op rnd fErr (opts.maxAttempts - 1) 1 (by omega) le_rfl hall

/-- Witness for C7: a three-attempt run where every attempt raises the
same `ETIMEDOUT` failure, using the default retry condition. -/
theorem retry_exhaustion_witness :
    (withRetry (α := Unit) ⟨3, 1000, 10000, true, defaultRetryCondition⟩
        (fun _ => .error ⟨none, some (jstr "ETIMEDOUT")⟩) (fun _ => 0)).result =
      .errored ⟨none, some (jstr "ETIMEDOUT")⟩ ∧
    (withRetry (α := Unit) ⟨3, 1000, 10000, true, defaultRetryCondition⟩
        (fun _ => .error ⟨none, some (jstr "ETIMEDOUT")⟩) (fun _ => 0)).attemptsMade = 3 :=
  retry_exhaustion ⟨3, 1000, 10000, true, defaultRetryCondition⟩
    (fun _ => .error ⟨none, some (jstr "ETIMEDOUT")⟩) (fun _ => 0)
    (fun _ => ⟨none, some (jstr "ETIMEDOUT")⟩) (by decide)
    (fun i h1 h2 => ⟨rfl, rfl⟩)

theorem computeDelay_ge_retry_after (opts : RetryOptions) (e : JsError) (r : ℚ)
    (attempt : Nat) (resp : JsResp) (hdr : List Nat) (ra : ℤ)
    (hresp : e.response = some resp) (hhdr : resp.retryAfterHdr = some hdr)
    (hra : jsParseInt hdr = some ra) :
    (ra : ℚ) * 1000 ≤ computeDelay opts e r attempt := by
  unfold computeDelay
  simp only [hresp, hhdr, hra]
  exact le_max_right _ _

theorem retryGo_sleeps_retry_after {α : Type} (opts : RetryOptions)
    (op : Nat → Except JsError α) (rnd : Nat → ℚ) :
    ∀ fuel a e d, (e, d) ∈ (retryGo opts op rnd a fuel).sleeps →
    ∀ resp hdr ra, e.response = some resp → resp.retryAfterHdr = some hdr →
      jsParseInt hdr = some ra → (ra : ℚ) * 1000 ≤ d := by
  intro fuel
  induction fuel with
  | zero =>
    intro a e d hmem
    rw [retryGo] at hmem
    rcases hop : op a with e0 | v <;> simp only [hop] at hmem
    · split at hmem <;> simp at hmem
    · simp at hmem
  | succ f ih =>
    intro a e d hmem resp hdr ra hresp hhdr hra
    rw [retryGo] at hmem
    rcases hop : op a with e0 | v <;> simp only [hop] at hmem
    · by_cases hstop : (decide (a = opts.maxAttempts) || !opts.retryCondition e0) = true
      · rw [if_pos hstop] at hmem
        simp at hmem
      · rw [if_neg hstop] at hmem
        simp only [List.mem_cons] at hmem
        rcases hmem with hhd | htl
        · rw [Prod.mk.injEq] at hhd
          obtain ⟨he, hd⟩ := hhd
          subst he
          subst hd
          exact computeDelay_ge_retry_after opts e (rnd a) a resp hdr ra hresp hhdr hra
        · exact ih (a + 1) e d htl resp hdr ra hresp hhdr hra
    · simp at hmem

/-- C8: every sleep the retry loop performs after a failure that carries
a parseable `Retry-After` of `ra` seconds lasts at least `ra * 1000` ms,
whatever the computed (possibly jittered) backoff was. -/
theorem retry_after_honored {α : Type} (opts : RetryOptions)
    (op : Nat → Except JsError α) (rnd : Nat → ℚ) (e : JsError) (d : ℚ)
    (hmem : (e, d) ∈ (withRetry opts op rnd).sleeps)
    (resp : JsResp) (hdr : List Nat) (ra : ℤ)
    (hresp : e.response = some resp) (hhdr : resp.retryAfterHdr = some hdr)
    (hra : jsParseInt hdr = some ra) :
    (ra : ℚ) * 1000 ≤ d := by
  unfold withRetry at hmem
  split at hmem
  · simp at hmem
  · exact retryGo_sleeps_retry_after opts op rnd _ _ e d hmem resp hdr ra hresp hhdr hra

/-- Witness for C8: a two-attempt run whose first failure is a 429 with
`Retry-After: 5`; the computed backoff would be 1 ms, yet the recorded
sleep is 5000 ms ≥ 5 * 1000. -/
theorem retry_after_honored_witness :
    ((⟨some ⟨429, some (jstr "5")⟩, none⟩ : JsError), (5000 : ℚ)) ∈
      (withRetry (α := Unit) ⟨2, 1, 10000, false, fun _ => true⟩
        (fun _ => .error ⟨some ⟨429, some (jstr "5")⟩, none⟩) (fun _ => 0)).sleeps ∧
    ((5 : ℤ) : ℚ) * 1000 ≤ (5000 : ℚ) := by
  constructor
  · have hd : computeDelay ⟨2, 1, 10000, false, fun _ => true⟩
        ⟨some ⟨429, some (jstr "5")⟩, none⟩ 0 1 = 5000 := by
      unfold computeDelay
      norm_num [show jsParseInt (jstr "5") = some 5 from rfl]
    have hs : (withRetry (α := Unit) ⟨2, 1, 10000, false, fun _ => true⟩
        (fun _ => .error ⟨some ⟨429, some (jstr "5")⟩, none⟩) (fun _ => 0)).sleeps =
        [(⟨some ⟨429, some (jstr "5")⟩, none⟩, computeDelay ⟨2, 1, 10000, false, fun _ => true⟩
          ⟨some ⟨429, some (jstr "5")⟩, none⟩ 0 1)] := rfl
    rw [hs, hd]
    simp
  · exact retry_after_honored (α := Unit) ⟨2, 1, 10000, false, fun _ => true⟩
      (fun _ => .error ⟨some ⟨429, some (jstr "5")⟩, none⟩) (fun _ => 0)
      ⟨some ⟨429, some (jstr "5")⟩, none⟩ 5000
      (by
        have hd : computeDelay ⟨2, 1, 10000, false, fun _ => true⟩
            ⟨some ⟨429, some (jstr "5")⟩, none⟩ 0 1 = 5000 := by
          unfold computeDelay
          norm_num [show jsParseInt (jstr "5") = some 5 from rfl]
        have hs : (withRetry (α := Unit) ⟨2, 1, 10000, false, fun _ => true⟩
            (fun _ => .error ⟨some ⟨429, some (jstr "5")⟩, none⟩) (fun _ => 0)).sleeps =
            [(⟨some ⟨429, some (jstr "5")⟩, none⟩,
              computeDelay ⟨2, 1, 10000, false, fun _ => true⟩
                ⟨some ⟨429, some (jstr "5")⟩, none⟩ 0 1)] := rfl
        rw [hs, hd]
        simp)
      ⟨429, some (jstr "5")⟩ (jstr "5") 5 rfl rfl rfl

/-! ## Cache keys -/

theorem lookupStr_eq_none_iff {α : Type} {l : List (List Nat × α)} {k : List Nat} :
    lookupStr l k = none ↔ k ∉ l.map Prod.fst := by
  induction l with
  | nil => simp [lookupStr]
  | cons kv t ih =>
    obtain ⟨k2, v2⟩ := kv
    by_cases hk : k2 = k
    · subst hk
      simp [lookupStr]
    · simp only [lookupStr, if_neg hk, List.map_cons, List.mem_cons, ih]
      constructor
      · intro h hmem
        rcases hmem with h1 | h2
        · exact hk h1.symm
        · exact h h2
      · intro h hmem
        exact h (Or.inr hmem)

theorem lookupStr_eq_some_iff {α : Type} {l : List (List Nat × α)} {k : List Nat} {v : α}
    (hnd : (l.map Prod.fst).Nodup) :
    lookupStr l k = some v ↔ (k, v) ∈ l := by
  induction l with
  | nil => simp [lookupStr]
  | cons kv t ih =>
    obtain ⟨k2, v2⟩ := kv
    simp only [List.map_cons, List.nodup_cons] at hnd
    by_cases hk : k2 = k
    · simp only [lookupStr, if_pos hk, List.mem_cons, Option.some.injEq, Prod.mk.injEq]
      subst hk
      constructor
      · intro h
        exact Or.inl ⟨rfl, h.symm⟩
      · intro h
        rcases h with ⟨_, hv⟩ | hmem
        · exact hv.symm
        · exact absurd (List.mem_map_of_mem Prod.fst hmem) hnd.1
    · simp only [lookupStr, if_neg hk, List.mem_cons, Prod.mk.injEq]
      rw [ih hnd.2]
      constructor
      · exact fun h => Or.inr h
      · intro h
        rcases h with ⟨h1, _⟩ | hmem
        · exact absurd h1.symm hk
        · exact hmem

theorem lookupStr_perm {α : Type} {l1 l2 : List (List Nat × α)}
    (hnd : (l1.map Prod.fst).Nodup) (hperm : l1.Perm l2) (k : List Nat) :
    lookupStr l1 k = lookupStr l2 k := by
  have hnd2 : (l2.map Prod.fst).Nodup := ((hperm.map Prod.fst).nodup_iff).mp hnd
  cases h1 : lookupStr l1 k with
  | none =>
    rw [lookupStr_eq_none_iff] at h1
    symm
    rw [lookupStr_eq_none_iff]
    intro hmem
    exact h1 ((hperm.map Prod.fst).mem_iff.mpr hmem)
  | some v =>
    rw [lookupStr_eq_some_iff hnd] at h1
    symm
    rw [lookupStr_eq_some_iff hnd2]
    exact hperm.subset h1

/-- C9: `Cache.createKey` is insertion-order independent.  For any two
parameter objects holding the same key-value entries (same entries, any
order, keys unique as JS object keys are), the produced cache key string
is identical, so identical logical requests collide on the same key. -/
theorem createKey_perm_invariant (p : List Nat) (l1 l2 : List (List Nat × Json))
    (hnd : (l1.map Prod.fst).Nodup) (hperm : l1.Perm l2) :
    createKey p l1 = createKey p l2 := by
  unfold createKey
  have hkeys : List.insertionSort keyLe (l1.map Prod.fst) =
      List.insertionSort keyLe (l2.map Prod.fst) := by
    refine List.eq_of_perm_of_sorted ?_ (List.sorted_insertionSort _ _)
      (List.sorted_insertionSort _ _)
    exact (List.perm_insertionSort _ _).trans
      ((hperm.map _).trans (List.perm_insertionSort _ _).symm)
  have hfun : (fun k => k ++ 61 :: jsonStringify ((lookupStr l1 k).getD Json.null)) =
      (fun k => k ++ 61 :: jsonStringify ((lookupStr l2 k).getD Json.null)) := by
    funext k
    rw [lookupStr_perm hnd hperm k]
  rw [hkeys, hfun]

/-- Witness for C9: `createKey("test", {a:1, b:2}) =
createKey("test", {b:2, a:1})`. -/
theorem createKey_perm_invariant_witness :
    ([(jstr "a", Json.num 1), (jstr "b", Json.num 2)].map Prod.fst).Nodup ∧
    createKey (jstr "test") [(jstr "a", Json.num 1), (jstr "b", Json.num 2)] =
      createKey (jstr "test") [(jstr "b", Json.num 2), (jstr "a", Json.num 1)] :=
  ⟨by decide,
   createKey_perm_invariant (jstr "test")
     [(jstr "a", Json.num 1), (jstr "b", Json.num 2)]
     [(jstr "b", Json.num 2), (jstr "a", Json.num 1)]
     (by decide)
     (List.Perm.swap (jstr "b", Json.num 2) (jstr "a", Json.num 1) [])⟩
